import Mathlib

/-!
Shallow embedding of `src/request_sender/sender.py` (the `request-sender`
repository): the `HttpxRequestParameters` model, the `RequestSender` class with
its two class-level client caches, header construction, and the `send` /
`send_async` dispatch paths.  Python dictionaries are modelled as association
lists (`List (String × _)`) with Python's insertion-order update semantics;
object identity of `httpx` client handles is modelled by a freshness counter
(`nextId`) carried in the registry state; the externally observable
`is_closed` flag of a handle is carried inside the handle model.
-/

namespace RequestSender

/-- Python runtime values that appear in the option dictionaries of the
sender: strings, ints, booleans, `None`, an `httpx.Timeout(...)` object
(carrying its textual argument), and the `httpx` sentinel
`USE_CLIENT_DEFAULT`. -/
inductive PyVal where
  | str : String → PyVal
  | int : Int → PyVal
  | bool : Bool → PyVal
  | none : PyVal
  | timeoutObj : String → PyVal
  | useClientDefault : PyVal
deriving DecidableEq, Repr

/-- A Python `dict[str, Any]` as an insertion-ordered association list. -/
abbrev Dict := List (String × PyVal)

/-- Python `d.get(k, None)`: first value stored under `k`, if any. -/
def alistGet {α : Type} : List (String × α) → String → Option α
  | [], _ => Option.none
  | (k, v) :: rest, key => if k = key then some v else alistGet rest key

/-- Python `d[k] = v`: replace the value at an existing key in place (keeping its
position), or append the pair when the key is absent. -/
def alistSet {α : Type} : List (String × α) → String → α → List (String × α)
  | [], key, v => [(key, v)]
  | (k, w) :: rest, key, v =>
      if k = key then (k, v) :: rest else (k, w) :: alistSet rest key v

/-- Python `d.update(kw)`: assign each pair of `kw` into `d`, in order. -/
def dictUpdate (d kw : Dict) : Dict :=
  kw.foldl (fun acc p => alistSet acc p.1 p.2) d

/-- The dispatch mode: which cache and which call path is used. -/
inductive Mode where
  | sync : Mode
  | async : Mode
deriving DecidableEq, Repr

/-- The string value the mode contributes to the `X-Request-Method` header. -/
def Mode.headerValue : Mode → String
  | .sync => "sync"
  | .async => "async"

/-- The `__package__` name of the module. -/
def packageName : String := "request_sender"

/-- Embeds `RequestSender._make_headers(service_name, request_method)`: the default
headers attached to a client.  `version` models the externally looked-up
`metadata.version(__package__)` of the installed package. -/
def make_headers (version : String) (service_name : String)
    (request_method : Mode) : List (String × String) :=
  [("User-Agent", packageName ++ "/" ++ version),
   ("X-Service-Name", service_name),
   ("X-Request-Method", request_method.headerValue)]

/-- A constructed `httpx.Client` / `httpx.AsyncClient` handle: its object
identity (`id`), the headers it was constructed with, the remaining
construction keyword options, and the observable `is_closed` flag (fresh
handles start open; closing happens externally). -/
structure Client where
  id : Nat
  headers : List (String × String)
  args : Dict
  is_closed : Bool
deriving DecidableEq, Repr

/-- The class-level state of `RequestSender`: the two keyed caches
`__client_storage` (sync) and `__async_client_storage` (async), plus the
freshness counter modelling allocation of new handle identities. -/
structure Registry where
  client_storage : List (String × Client)
  async_client_storage : List (String × Client)
  nextId : Nat
deriving DecidableEq, Repr

/-- The cache used by a given mode. -/
def Registry.storage (st : Registry) : Mode → List (String × Client)
  | .sync => st.client_storage
  | .async => st.async_client_storage

/-- Embeds `RequestSender.__get_sync_client(service_name, additional_args)`:
return the cached sync client for the service name if present and open,
otherwise construct a fresh `httpx.Client` with the default headers and the
given options, store it under the name, and return it.  (`httpx` client
objects define no `__bool__`, so the walrus-operator test in the source is a
presence test.) -/
def get_sync_client (version : String) (st : Registry) (service_name : String)
    (additional_args : Option Dict) : Client × Registry :=
  let args := additional_args.getD []
  match alistGet st.client_storage service_name with
  | some client =>
      if !client.is_closed then (client, st)
      else
        let c : Client :=
          ⟨st.nextId, make_headers version service_name .sync, args, false⟩
        (c, { st with client_storage := alistSet st.client_storage service_name c,
                      nextId := st.nextId + 1 })
  | Option.none =>
      let c : Client :=
        ⟨st.nextId, make_headers version service_name .sync, args, false⟩
      (c, { st with client_storage := alistSet st.client_storage service_name c,
                    nextId := st.nextId + 1 })

/-- Embeds `RequestSender.__get_async_client(service_name, additional_args)`: the
async counterpart, using the async cache and async-mode headers. -/
def get_async_client (version : String) (st : Registry) (service_name : String)
    (additional_args : Option Dict) : Client × Registry :=
  let args := additional_args.getD []
  match alistGet st.async_client_storage service_name with
  | some client =>
      if !client.is_closed then (client, st)
      else
        let c : Client :=
          ⟨st.nextId, make_headers version service_name .async, args, false⟩
        (c, { st with async_client_storage := alistSet st.async_client_storage service_name c,
                      nextId := st.nextId + 1 })
  | Option.none =>
      let c : Client :=
        ⟨st.nextId, make_headers version service_name .async, args, false⟩
      (c, { st with async_client_storage := alistSet st.async_client_storage service_name c,
                    nextId := st.nextId + 1 })

/-- The client lookup performed by `send` (sync mode) and `send_async`
(async mode): dispatch to the corresponding private method. -/
def getOrCreate (version : String) (st : Registry) (m : Mode)
    (service_name : String) (additional_args : Option Dict) : Client × Registry :=
  match m with
  | .sync => get_sync_client version st service_name additional_args
  | .async => get_async_client version st service_name additional_args

/-- The pydantic model `HttpxRequestParameters`: optional per-call request
options.  `json_data` carries the alias `json`; `auth`, `follow_redirects`
and `timeout` default to the `httpx` sentinel `USE_CLIENT_DEFAULT`, every
other field defaults to `None`. -/
structure HttpxRequestParameters where
  content : PyVal := .none
  data : PyVal := .none
  files : PyVal := .none
  json_data : PyVal := .none
  params : PyVal := .none
  headers : PyVal := .none
  cookies : PyVal := .none
  auth : PyVal := .useClientDefault
  follow_redirects : PyVal := .useClientDefault
  timeout : PyVal := .useClientDefault
  extensions : PyVal := .none
deriving DecidableEq, Repr

/-- Embeds `params.model_dump(by_alias=True)`: the keyword-argument dictionary the
model serializes to.  Every field of the model is emitted (pydantic's
`model_dump` is called without `exclude_unset` or `exclude_none`), with
`json_data` emitted under its alias `json`. -/
def HttpxRequestParameters.model_dump (p : HttpxRequestParameters) : Dict :=
  [("content", p.content), ("data", p.data), ("files", p.files),
   ("json", p.json_data), ("params", p.params), ("headers", p.headers),
   ("cookies", p.cookies), ("auth", p.auth),
   ("follow_redirects", p.follow_redirects), ("timeout", p.timeout),
   ("extensions", p.extensions)]

/-- Models the defaults of the external HTTP collaborator's
`request(method, url, options)` operation (`httpx.Client.request` /
`httpx.AsyncClient.request`), whose own defaults are `None` for the
content/data/files/json/params/headers/cookies/extensions options and the
`USE_CLIENT_DEFAULT` sentinel for auth/follow_redirects/timeout.  Used only
to compare the serialized argument set against the collaborator's defaults. -/
def httpxRequestDefaults : Dict :=
  [("content", .none), ("data", .none), ("files", .none),
   ("json", .none), ("params", .none), ("headers", .none),
   ("cookies", .none), ("auth", .useClientDefault),
   ("follow_redirects", .useClientDefault), ("timeout", .useClientDefault),
   ("extensions", .none)]

/-- The `service_name` constructor argument: a string, or a zero-argument
provider function (`Callable[..., str]` in the annotation, but the value it
returns is not checked at runtime). -/
inductive ServiceNameArg where
  | str : String → ServiceNameArg
  | provider : (Unit → PyVal) → ServiceNameArg

/-- Default of the `service_name` parameter. -/
def defaultServiceName : ServiceNameArg := .str "Undefined"

/-- Default of the `timeout` parameter: `Timeout(timeout=30.0)`. -/
def defaultTimeout : PyVal := .timeoutObj "30.0"

/-- Embeds `self.additional_args`: `{"timeout": timeout, "verify": verify}` updated
with `client_kwargs` when the latter is not `None`. -/
def mkAdditionalArgs (timeout : PyVal) (verify : Bool)
    (client_kwargs : Option Dict) : Dict :=
  let base : Dict := [("timeout", timeout), ("verify", .bool verify)]
  match client_kwargs with
  | Option.none => base
  | some kw => dictUpdate base kw

/-- The per-instance state stored by `RequestSender.__init__`. -/
structure SenderConfig where
  service_name : PyVal
  base_url : Option String
  additional_args : Dict
deriving Repr

/-- Embeds `RequestSender.__init__`: each `Option` parameter models a Python
argument that may be omitted (defaulting per the signature).  A callable
`service_name` is invoked once and its result stored as-is; the `Nat`
component counts provider invocations.  The body contains no `raise`, so the
result is always `Except.ok`. -/
def requestSenderInit (service_name : Option ServiceNameArg)
    (base_url : Option (Option String)) (timeout : Option PyVal)
    (verify : Option Bool) (client_kwargs : Option (Option Dict)) :
    Except String (SenderConfig × Nat) :=
  let snArg := service_name.getD defaultServiceName
  let resolved : PyVal × Nat :=
    match snArg with
    | .str s => (.str s, 0)
    | .provider f => (f (), 1)
  Except.ok
    (⟨resolved.1, (base_url.getD Option.none),
      mkAdditionalArgs (timeout.getD defaultTimeout) (verify.getD true)
        (client_kwargs.getD Option.none)⟩,
     resolved.2)

/-- A `RequestSender` instance whose stored `service_name` is a string (the
well-typed case in which `send` / `send_async` operate). -/
structure Sender where
  service_name : String
  base_url : Option String
  additional_args : Dict
deriving DecidableEq, Repr

/-- What a dispatch method hands to the underlying client's `request` call:
the client handle used, the method, the final URL, and the serialized
keyword arguments. -/
structure SendResult where
  client : Client
  method : String
  url : String
  requestArgs : Dict
deriving DecidableEq, Repr

/-- Embeds `RequestSender.send(method, url, params, use_base_url=True)`: obtain the
sync client for this sender's service name, build the final URL by literal
string interpolation when `use_base_url` and a base URL is configured, and
delegate to the client's `request` with the serialized parameters.
(`params or HttpxRequestParameters()` substitutes the default model when
`params` is `None`.) -/
def Sender.send (version : String) (st : Registry) (s : Sender)
    (method url : String) (params : Option HttpxRequestParameters)
    (use_base_url : Bool := true) : SendResult × Registry :=
  let p := params.getD {}
  let cr := get_sync_client version st s.service_name (some s.additional_args)
  let finalUrl :=
    if use_base_url then
      match s.base_url with
      | some b => b ++ url
      | Option.none => url
    else url
  (⟨cr.1, method, finalUrl, p.model_dump⟩, cr.2)

/-- Embeds `RequestSender.send_async(...)`: identical, on the async client path. -/
def Sender.send_async (version : String) (st : Registry) (s : Sender)
    (method url : String) (params : Option HttpxRequestParameters)
    (use_base_url : Bool := true) : SendResult × Registry :=
  let p := params.getD {}
  let cr := get_async_client version st s.service_name (some s.additional_args)
  let finalUrl :=
    if use_base_url then
      match s.base_url with
      | some b => b ++ url
      | Option.none => url
    else url
  (⟨cr.1, method, finalUrl, p.model_dump⟩, cr.2)

/-- The opposite mode (proof infrastructure for frame statements). -/
def Mode.other : Mode → Mode
  | .sync => .async
  | .async => .sync

/-- Replace one mode's cache and the freshness counter (proof
infrastructure describing the state produced by a cache miss). -/
def Registry.withStorage (st : Registry) : Mode → List (String × Client) → Nat → Registry
  | .sync, l, n => { st with client_storage := l, nextId := n }
  | .async, l, n => { st with async_client_storage := l, nextId := n }

/-- Well-formedness of one mode's cache relative to the freshness counter:
every cached handle was allocated earlier (id below the counter) and carries
the default headers for its own key, and distinct keys hold handles of
distinct identity. -/
def StorageInv (version : String) (m : Mode) (l : List (String × Client))
    (n : Nat) : Prop :=
  (∀ k c, alistGet l k = some c →
      c.id < n ∧ c.headers = make_headers version k m) ∧
  (∀ k₁ k₂ c₁ c₂, alistGet l k₁ = some c₁ → alistGet l k₂ = some c₂ →
      k₁ ≠ k₂ → c₁.id ≠ c₂.id)

theorem alistGet_alistSet_self {α : Type} (l : List (String × α)) (k : String)
    (v : α) : alistGet (alistSet l k v) k = some v := by
  induction l with
  | nil => simp [alistGet, alistSet]
  | cons p rest ih =>
      obtain ⟨k', w⟩ := p
      by_cases h : k' = k
      · simp [alistSet, alistGet, h]
      · simp [alistSet, alistGet, h, ih]

theorem alistGet_alistSet_ne {α : Type} (l : List (String × α)) (k k' : String)
    (v : α) (h : k' ≠ k) :
    alistGet (alistSet l k v) k' = alistGet l k' := by
  induction l with
  | nil => simp [alistGet, alistSet, Ne.symm h]
  | cons p rest ih =>
      obtain ⟨a, w⟩ := p
      by_cases ha : a = k
      · subst ha
        simp [alistSet, alistGet, Ne.symm h]
      · simp [alistSet, alistGet, ha, ih]

theorem storage_withStorage_self (st : Registry) (m : Mode)
    (l : List (String × Client)) (n : Nat) :
    (st.withStorage m l n).storage m = l := by
  cases m <;> rfl

theorem storage_withStorage_other (st : Registry) (m : Mode)
    (l : List (String × Client)) (n : Nat) :
    (st.withStorage m l n).storage m.other = st.storage m.other := by
  cases m <;> rfl

theorem nextId_withStorage (st : Registry) (m : Mode)
    (l : List (String × Client)) (n : Nat) :
    (st.withStorage m l n).nextId = n := by
  cases m <;> rfl

/-- Characterization of `getOrCreate`: either the cache holds an open handle
for the key and the call returns it with the state untouched, or (key absent
or handle closed) the call returns a freshly allocated handle with the
default headers and the given options, stored under the key. -/
theorem getOrCreate_cases (version : String) (st : Registry) (m : Mode)
    (name : String) (args : Option Dict) :
    (∃ c, alistGet (st.storage m) name = some c ∧ c.is_closed = false ∧
        getOrCreate version st m name args = (c, st)) ∨
    ((alistGet (st.storage m) name = Option.none ∨
        ∃ c, alistGet (st.storage m) name = some c ∧ c.is_closed = true) ∧
      getOrCreate version st m name args =
        (⟨st.nextId, make_headers version name m, args.getD [], false⟩,
         st.withStorage m
           (alistSet (st.storage m) name
             ⟨st.nextId, make_headers version name m, args.getD [], false⟩)
           (st.nextId + 1))) := by
  cases m with
  | sync =>
      cases h : alistGet st.client_storage name with
      | none =>
          right
          refine ⟨Or.inl h, ?_⟩
          simp [getOrCreate, get_sync_client, Registry.storage,
            Registry.withStorage, h]
      | some c =>
          by_cases hc : c.is_closed
          · right
            refine ⟨Or.inr ⟨c, h, hc⟩, ?_⟩
            simp [getOrCreate, get_sync_client, Registry.storage,
              Registry.withStorage, h, hc]
          · left
            refine ⟨c, h, by simp [hc], ?_⟩
            simp [getOrCreate, get_sync_client, Registry.storage, h, hc]
  | async =>
      cases h : alistGet st.async_client_storage name with
      | none =>
          right
          refine ⟨Or.inl h, ?_⟩
          simp [getOrCreate, get_async_client, Registry.storage,
            Registry.withStorage, h]
      | some c =>
          by_cases hc : c.is_closed
          · right
            refine ⟨Or.inr ⟨c, h, hc⟩, ?_⟩
            simp [getOrCreate, get_async_client, Registry.storage,
              Registry.withStorage, h, hc]
          · left
            refine ⟨c, h, by simp [hc], ?_⟩
            simp [getOrCreate, get_async_client, Registry.storage, h, hc]

/-- A creation step preserves the cache well-formedness invariant. -/
theorem storageInv_getOrCreate (version : String) (st : Registry) (m : Mode)
    (name : String) (args : Option Dict)
    (hinv : StorageInv version m (st.storage m) st.nextId) :
    StorageInv version m ((getOrCreate version st m name args).2.storage m)
      ((getOrCreate version st m name args).2.nextId) := by
  rcases getOrCreate_cases version st m name args with
    ⟨c, _, _, heq⟩ | ⟨_, heq⟩
  · rw [heq]
    exact hinv
  · rw [heq]
    simp only [storage_withStorage_self, nextId_withStorage]
    constructor
    · intro k c hk
      by_cases hkn : k = name
      · subst hkn
        rw [alistGet_alistSet_self] at hk
        cases hk
        exact ⟨Nat.lt_succ_self _, rfl⟩
      · rw [alistGet_alistSet_ne _ _ _ _ hkn] at hk
        rcases hinv.1 k c hk with ⟨hlt, hhd⟩
        exact ⟨Nat.lt_succ_of_lt hlt, hhd⟩
    · intro k₁ k₂ c₁ c₂ h₁ h₂ hne
      by_cases hk₁ : k₁ = name
      · subst hk₁
        rw [alistGet_alistSet_self] at h₁
        cases h₁
        rw [alistGet_alistSet_ne _ _ _ _ hne.symm] at h₂
        have := (hinv.1 k₂ c₂ h₂).1
        exact fun hid => absurd hid.symm (Nat.ne_of_lt this)
      · by_cases hk₂ : k₂ = name
        · subst hk₂
          rw [alistGet_alistSet_self] at h₂
          cases h₂
          rw [alistGet_alistSet_ne _ _ _ _ hk₁] at h₁
          exact Nat.ne_of_lt (hinv.1 k₁ c₁ h₁).1
        · rw [alistGet_alistSet_ne _ _ _ _ hk₁] at h₁
          rw [alistGet_alistSet_ne _ _ _ _ hk₂] at h₂
          exact hinv.2 k₁ k₂ c₁ c₂ h₁ h₂ hne

/-- Default headers for two service names agree at every key other than
`X-Service-Name`. -/
theorem make_headers_agree (version n₁ n₂ : String) (m : Mode) (k : String)
    (hk : k ≠ "X-Service-Name") :
    alistGet (make_headers version n₁ m) k =
      alistGet (make_headers version n₂ m) k := by
  simp only [make_headers, alistGet]
  simp [Ne.symm hk]

/-- C1: for a fixed service name and mode, when the cache already holds an
open handle under that name, the client lookup performed by `send` /
`send_async` returns exactly that handle and leaves the registry — cache and
freshness counter, hence without constructing any new handle — unchanged;
repeated calls while the handle stays open are therefore idempotent and at
most one live handle exists per (service name, mode) pair. -/
theorem C1_getOrCreate_cached_open (version : String) (st : Registry)
    (m : Mode) (name : String) (args : Option Dict) (c : Client)
    (hget : alistGet (st.storage m) name = some c)
    (hopen : c.is_closed = false) :
    getOrCreate version st m name args = (c, st) := by
  rcases getOrCreate_cases version st m name args with
    ⟨c', hget', _, heq⟩ | ⟨habs, _⟩
  · rw [hget] at hget'
    injection hget' with hc
    subst hc
    exact heq
  · exfalso
    rcases habs with hnone | ⟨c₀, hget₀, hcl⟩
    · rw [hget] at hnone
      exact Option.noConfusion hnone
    · rw [hget] at hget₀
      injection hget₀ with hc
      subst hc
      rw [hopen] at hcl
      exact Bool.noConfusion hcl

theorem C1_getOrCreate_cached_open_witness :
    alistGet ((Registry.mk [("svc", ⟨0, [], [], false⟩)] [] 1).storage
        Mode.sync) "svc" = some ⟨0, [], [], false⟩ ∧
    (⟨0, [], [], false⟩ : Client).is_closed = false ∧
    getOrCreate "1.0.0" (Registry.mk [("svc", ⟨0, [], [], false⟩)] [] 1)
        Mode.sync "svc" Option.none
      = (⟨0, [], [], false⟩, Registry.mk [("svc", ⟨0, [], [], false⟩)] [] 1) :=
  have h1 : alistGet ((Registry.mk [("svc", ⟨0, [], [], false⟩)] [] 1).storage
      Mode.sync) "svc" = some ⟨0, [], [], false⟩ := by
    simp [Registry.storage, alistGet]
  ⟨h1, rfl, C1_getOrCreate_cached_open "1.0.0" _ Mode.sync "svc" Option.none _ h1 rfl⟩

/-- C2: when the cache holds no handle under the service name, or holds a
closed one, the lookup constructs a fresh handle whose headers are the
default headers for the name and mode and whose remaining construction
options are the caller-supplied ones, stores it under the name, and returns
it; the returned handle is distinct from any previously cached closed handle
(whose identity was allocated earlier). -/
theorem C2_getOrCreate_creates (version : String) (st : Registry)
    (m : Mode) (name : String) (args : Dict)
    (h : alistGet (st.storage m) name = Option.none ∨
        ∃ c₀, alistGet (st.storage m) name = some c₀ ∧ c₀.is_closed = true) :
    (getOrCreate version st m name (some args)).1.headers
        = make_headers version name m ∧
    (getOrCreate version st m name (some args)).1.args = args ∧
    (getOrCreate version st m name (some args)).1.id = st.nextId ∧
    alistGet (((getOrCreate version st m name (some args)).2).storage m) name
        = some (getOrCreate version st m name (some args)).1 ∧
    (∀ c₀, alistGet (st.storage m) name = some c₀ → c₀.id < st.nextId →
        (getOrCreate version st m name (some args)).1 ≠ c₀) := by
  rcases getOrCreate_cases version st m name (some args) with
    ⟨c, hget, hopen, _⟩ | ⟨_, heq⟩
  · exfalso
    rcases h with hnone | ⟨c₀, hget₀, hcl⟩
    · rw [hget] at hnone
      exact Option.noConfusion hnone
    · rw [hget] at hget₀
      injection hget₀ with hc
      subst hc
      rw [hopen] at hcl
      exact Bool.noConfusion hcl
  · rw [heq]
    refine ⟨rfl, rfl, rfl, ?_, ?_⟩
    · simp only [storage_withStorage_self]
      exact alistGet_alistSet_self _ _ _
    · intro c₀ _ hlt heqc
      have hid : st.nextId = c₀.id := congrArg Client.id heqc
      rw [hid] at hlt
      exact lt_irrefl _ hlt

theorem C2_getOrCreate_creates_witness :
    (alistGet ((Registry.mk [("svc", ⟨0, [], [], true⟩)] [] 1).storage
          Mode.sync) "svc" = Option.none ∨
      ∃ c₀, alistGet ((Registry.mk [("svc", ⟨0, [], [], true⟩)] [] 1).storage
          Mode.sync) "svc" = some c₀ ∧ c₀.is_closed = true) ∧
    (getOrCreate "1.0.0" (Registry.mk [("svc", ⟨0, [], [], true⟩)] [] 1)
        Mode.sync "svc" (some [("verify", PyVal.bool true)])).1.id = 1 :=
  have h : (alistGet ((Registry.mk [("svc", ⟨0, [], [], true⟩)] [] 1).storage
        Mode.sync) "svc" = Option.none ∨
      ∃ c₀, alistGet ((Registry.mk [("svc", ⟨0, [], [], true⟩)] [] 1).storage
        Mode.sync) "svc" = some c₀ ∧ c₀.is_closed = true) :=
    Or.inr ⟨⟨0, [], [], true⟩, by simp [Registry.storage, alistGet], rfl⟩
  ⟨h, (C2_getOrCreate_creates "1.0.0" _ Mode.sync "svc"
      [("verify", PyVal.bool true)] h).2.2.1⟩

/-- C3: `_make_headers` is a pure function of its inputs, a mapping of
exactly the three keys User-Agent (library identity and version),
X-Service-Name (the service name) and X-Request-Method (the mode); a handle
created on the sync call path carries mode value "sync" and one created on
the async call path carries "async". -/
theorem C3_make_headers_exact (version name : String) (m : Mode)
    (st : Registry) (args : Option Dict)
    (hs : alistGet st.client_storage name = Option.none)
    (ha : alistGet st.async_client_storage name = Option.none) :
    (make_headers version name m).map Prod.fst
        = ["User-Agent", "X-Service-Name", "X-Request-Method"] ∧
    alistGet (make_headers version name m) "User-Agent"
        = some (packageName ++ "/" ++ version) ∧
    alistGet (make_headers version name m) "X-Service-Name" = some name ∧
    alistGet (make_headers version name m) "X-Request-Method"
        = some m.headerValue ∧
    alistGet (get_sync_client version st name args).1.headers
        "X-Request-Method" = some "sync" ∧
    alistGet (get_async_client version st name args).1.headers
        "X-Request-Method" = some "async" := by
  refine ⟨rfl, ?_, ?_, ?_, ?_, ?_⟩ <;>
    simp [make_headers, alistGet, get_sync_client, get_async_client, hs, ha,
      Mode.headerValue]

theorem C3_make_headers_exact_witness :
    alistGet (Registry.mk [] [] 0).client_storage "svc" = Option.none ∧
    alistGet (Registry.mk [] [] 0).async_client_storage "svc" = Option.none ∧
    alistGet (get_sync_client "1.0.0" (Registry.mk [] [] 0) "svc"
        Option.none).1.headers "X-Request-Method" = some "sync" :=
  ⟨rfl, rfl,
    (C3_make_headers_exact "1.0.0" "svc" Mode.sync (Registry.mk [] [] 0)
      Option.none rfl rfl).2.2.2.2.1⟩

/-- C4 counterexample: the serialized argument set of an all-unset
`HttpxRequestParameters` is not empty — the unset field `content` (and every
other field) is still present in the dump, so fields left unset are not
omitted from the serialized argument set. -/
theorem C4_model_dump_unset_present :
    HttpxRequestParameters.model_dump {} ≠ [] ∧
    alistGet (HttpxRequestParameters.model_dump {}) "content"
        = some PyVal.none ∧
    (HttpxRequestParameters.model_dump {}).map Prod.fst
        = ["content", "data", "files", "json", "params", "headers", "cookies",
           "auth", "follow_redirects", "timeout", "extensions"] := by
  refine ⟨?_, ?_, rfl⟩
  · simp [HttpxRequestParameters.model_dump]
  · simp [HttpxRequestParameters.model_dump, alistGet]

/-- C4 (amended): serialization renames the JSON-payload field to the wire
key `json` and never emits the field name `json_data`; fields left unset are
not omitted but serialized with their model defaults, the argument set
always consisting of the same eleven wire keys, and for an all-unset
parameter bag those defaults coincide pointwise with the underlying client's
own request defaults — so the underlying client's defaults still apply. -/
theorem C4_model_dump_alias_defaults (p : HttpxRequestParameters) :
    alistGet p.model_dump "json" = some p.json_data ∧
    "json_data" ∉ p.model_dump.map Prod.fst ∧
    p.model_dump.map Prod.fst = httpxRequestDefaults.map Prod.fst ∧
    HttpxRequestParameters.model_dump {} = httpxRequestDefaults := by
  refine ⟨?_, ?_, rfl, rfl⟩
  · simp [HttpxRequestParameters.model_dump, alistGet]
  · simp [HttpxRequestParameters.model_dump]

/-- C5 counterexample: constructing with a provider that returns the
non-string value `7` succeeds — the constructor returns normally rather than
failing with an error, and silently stores the non-string value (invoking
the provider once). -/
theorem C5_init_nonstring_no_error :
    requestSenderInit (some (.provider (fun _ => PyVal.int 7)))
        Option.none Option.none Option.none Option.none
      = Except.ok
          (⟨PyVal.int 7, Option.none,
            [("timeout", defaultTimeout), ("verify", PyVal.bool true)]⟩, 1) :=
  rfl

/-- C5 (amended): a zero-argument provider passed as `service_name` is
invoked exactly once at construction time and the value it returns is stored
as-is: construction always returns normally — no error is raised locally,
even when the provider's value is not a string. -/
theorem C5_init_provider_once (f : Unit → PyVal) (bu : Option (Option String))
    (t : Option PyVal) (v : Option Bool) (kw : Option (Option Dict)) :
    ∃ cfg : SenderConfig,
      requestSenderInit (some (.provider f)) bu t v kw = Except.ok (cfg, 1) ∧
      cfg.service_name = f () :=
  ⟨_, rfl, rfl⟩

/-- C6: with a configured base URL and `use_base_url = true`, both dispatch
paths issue the request to the literal string concatenation of the base URL
and the given url — no slash insertion, deduplication, or other path-joining
normalization. -/
theorem C6_send_base_url_concat (version : String) (st : Registry)
    (name b : String) (args : Dict) (method url : String)
    (p : Option HttpxRequestParameters) :
    (Sender.send version st ⟨name, some b, args⟩ method url p true).1.url
        = b ++ url ∧
    (Sender.send_async version st ⟨name, some b, args⟩ method url p true).1.url
        = b ++ url :=
  ⟨rfl, rfl⟩

/-- C7: with `use_base_url = false` the given url is issued exactly as
supplied, ignoring any configured base URL; likewise when no base URL is
configured the url passes through unchanged for either flag value. -/
theorem C7_send_url_passthrough (version : String) (st : Registry)
    (name : String) (bu : Option String) (args : Dict) (method url : String)
    (p : Option HttpxRequestParameters) (ub : Bool) :
    (Sender.send version st ⟨name, bu, args⟩ method url p false).1.url
        = url ∧
    (Sender.send_async version st ⟨name, bu, args⟩ method url p false).1.url
        = url ∧
    (Sender.send version st ⟨name, Option.none, args⟩ method url p ub).1.url
        = url ∧
    (Sender.send_async version st ⟨name, Option.none, args⟩ method url p
        ub).1.url = url := by
  refine ⟨rfl, rfl, ?_, ?_⟩ <;> cases ub <;> rfl

/-- C8: from a well-formed cache state, the lookups for two distinct service
names in the same mode return distinct handles, and the two handles' header
sets agree at every key other than X-Service-Name, which holds the two
respective service names. -/
theorem C8_distinct_names (version : String) (st : Registry) (m : Mode)
    (n₁ n₂ : String) (a₁ a₂ : Option Dict) (hne : n₁ ≠ n₂)
    (hinv : StorageInv version m (st.storage m) st.nextId) :
    (getOrCreate version st m n₁ a₁).1
        ≠ (getOrCreate version ((getOrCreate version st m n₁ a₁).2) m n₂
              a₂).1 ∧
    alistGet (getOrCreate version st m n₁ a₁).1.headers "X-Service-Name"
        = some n₁ ∧
    alistGet (getOrCreate version ((getOrCreate version st m n₁ a₁).2) m n₂
        a₂).1.headers "X-Service-Name" = some n₂ ∧
    (∀ k, k ≠ "X-Service-Name" →
      alistGet (getOrCreate version st m n₁ a₁).1.headers k
        = alistGet (getOrCreate version ((getOrCreate version st m n₁ a₁).2)
            m n₂ a₂).1.headers k) := by
  have key : (getOrCreate version st m n₁ a₁).1.headers
        = make_headers version n₁ m ∧
      (getOrCreate version ((getOrCreate version st m n₁ a₁).2) m n₂
          a₂).1.headers = make_headers version n₂ m ∧
      (getOrCreate version st m n₁ a₁).1.id
        ≠ (getOrCreate version ((getOrCreate version st m n₁ a₁).2) m n₂
            a₂).1.id := by
    rcases getOrCreate_cases version st m n₁ a₁ with
      ⟨c₁, hg₁, _, he₁⟩ | ⟨_, he₁⟩
    · have e₁ : (getOrCreate version st m n₁ a₁).1 = c₁ := by rw [he₁]
      have e₂ : (getOrCreate version st m n₁ a₁).2 = st := by rw [he₁]
      rw [e₁, e₂]
      rcases getOrCreate_cases version st m n₂ a₂ with
        ⟨c₂, hg₂, _, he₂⟩ | ⟨_, he₂⟩
      · have f₁ : (getOrCreate version st m n₂ a₂).1 = c₂ := by rw [he₂]
        rw [f₁]
        exact ⟨(hinv.1 n₁ c₁ hg₁).2, (hinv.1 n₂ c₂ hg₂).2,
          hinv.2 n₁ n₂ c₁ c₂ hg₁ hg₂ hne⟩
      · have f₁ : (getOrCreate version st m n₂ a₂).1
            = ⟨st.nextId, make_headers version n₂ m, a₂.getD [], false⟩ := by
          rw [he₂]
        rw [f₁]
        exact ⟨(hinv.1 n₁ c₁ hg₁).2, rfl,
          Nat.ne_of_lt (hinv.1 n₁ c₁ hg₁).1⟩
    · have e₁ : (getOrCreate version st m n₁ a₁).1
          = ⟨st.nextId, make_headers version n₁ m, a₁.getD [], false⟩ := by
        rw [he₁]
      have e₂ : (getOrCreate version st m n₁ a₁).2
          = st.withStorage m
              (alistSet (st.storage m) n₁
                ⟨st.nextId, make_headers version n₁ m, a₁.getD [], false⟩)
              (st.nextId + 1) := by
        rw [he₁]
      rw [e₁, e₂]
      have hstor : alistGet
          ((st.withStorage m
            (alistSet (st.storage m) n₁
              ⟨st.nextId, make_headers version n₁ m, a₁.getD [], false⟩)
            (st.nextId + 1)).storage m) n₂ = alistGet (st.storage m) n₂ := by
        rw [storage_withStorage_self]
        exact alistGet_alistSet_ne _ _ _ _ (Ne.symm hne)
      rcases getOrCreate_cases version
          (st.withStorage m
            (alistSet (st.storage m) n₁
              ⟨st.nextId, make_headers version n₁ m, a₁.getD [], false⟩)
            (st.nextId + 1)) m n₂ a₂ with
        ⟨c₂, hg₂, _, he₂⟩ | ⟨_, he₂⟩
      · have f₁ : (getOrCreate version
            (st.withStorage m
              (alistSet (st.storage m) n₁
                ⟨st.nextId, make_headers version n₁ m, a₁.getD [], false⟩)
              (st.nextId + 1)) m n₂ a₂).1 = c₂ := by rw [he₂]
        rw [f₁]
        rw [hstor] at hg₂
        refine ⟨rfl, (hinv.1 n₂ c₂ hg₂).2, ?_⟩
        exact fun h => absurd h.symm (Nat.ne_of_lt (hinv.1 n₂ c₂ hg₂).1)
      · have f₁ : (getOrCreate version
            (st.withStorage m
              (alistSet (st.storage m) n₁
                ⟨st.nextId, make_headers version n₁ m, a₁.getD [], false⟩)
              (st.nextId + 1)) m n₂ a₂).1
            = ⟨(st.withStorage m
                  (alistSet (st.storage m) n₁
                    ⟨st.nextId, make_headers version n₁ m, a₁.getD [],
                      false⟩)
                  (st.nextId + 1)).nextId, make_headers version n₂ m,
                a₂.getD [], false⟩ := by
          rw [he₂]
        rw [f₁]
        refine ⟨rfl, rfl, ?_⟩
        rw [nextId_withStorage]
        exact Nat.ne_of_lt (Nat.lt_succ_self _)
  obtain ⟨h₁, h₂, hid⟩ := key
  refine ⟨fun h => hid (congrArg Client.id h), ?_, ?_, ?_⟩
  · rw [h₁]
    simp [make_headers, alistGet]
  · rw [h₂]
    simp [make_headers, alistGet]
  · intro k hk
    rw [h₁, h₂]
    exact make_headers_agree version n₁ n₂ m k hk

theorem C8_distinct_names_witness :
    ("a" : String) ≠ "b" ∧
    StorageInv "1.0.0" Mode.sync ((Registry.mk [] [] 0).storage Mode.sync)
      (Registry.mk [] [] 0).nextId ∧
    ((getOrCreate "1.0.0" (Registry.mk [] [] 0) Mode.sync "a" Option.none).1
        ≠ (getOrCreate "1.0.0"
            ((getOrCreate "1.0.0" (Registry.mk [] [] 0) Mode.sync "a"
                Option.none).2) Mode.sync "b" Option.none).1) ∧
    alistGet (getOrCreate "1.0.0" (Registry.mk [] [] 0) Mode.sync "a"
        Option.none).1.headers "User-Agent"
      = alistGet (getOrCreate "1.0.0"
          ((getOrCreate "1.0.0" (Registry.mk [] [] 0) Mode.sync "a"
              Option.none).2) Mode.sync "b" Option.none).1.headers
          "User-Agent" :=
  have hne : ("a" : String) ≠ "b" := by decide
  have hinv : StorageInv "1.0.0" Mode.sync
      ((Registry.mk [] [] 0).storage Mode.sync) (Registry.mk [] [] 0).nextId :=
    ⟨fun _ _ h => Option.noConfusion h,
     fun _ _ _ _ h _ _ => Option.noConfusion h⟩
  ⟨hne, hinv,
    (C8_distinct_names "1.0.0" (Registry.mk [] [] 0) Mode.sync "a" "b"
      Option.none Option.none hne hinv).1,
    (C8_distinct_names "1.0.0" (Registry.mk [] [] 0) Mode.sync "a" "b"
      Option.none Option.none hne hinv).2.2.2 "User-Agent" (by decide)⟩

/-- C9: construction without an explicit service name stores the default
name "Undefined"; consequently two senders constructed with the default name
share the cached handle per mode — when the first lookup creates the handle
with its own options, a second lookup with different options returns that
same handle unchanged, so the first creator's options remain in effect. -/
theorem C9_default_name_sharing (version : String) (st : Registry) (m : Mode)
    (bu : Option (Option String)) (t : Option PyVal) (v : Option Bool)
    (kw : Option (Option Dict)) (argsA argsB : Dict)
    (habs : alistGet (st.storage m) "Undefined" = Option.none) :
    (∃ cfg : SenderConfig, ∃ n : Nat,
        requestSenderInit Option.none bu t v kw = Except.ok (cfg, n) ∧
        cfg.service_name = PyVal.str "Undefined") ∧
    (getOrCreate version
        ((getOrCreate version st m "Undefined" (some argsA)).2) m "Undefined"
        (some argsB)).1
      = (getOrCreate version st m "Undefined" (some argsA)).1 ∧
    (getOrCreate version st m "Undefined" (some argsA)).1.args = argsA ∧
    (getOrCreate version
        ((getOrCreate version st m "Undefined" (some argsA)).2) m "Undefined"
        (some argsB)).2
      = (getOrCreate version st m "Undefined" (some argsA)).2 := by
  refine ⟨⟨_, _, rfl, rfl⟩, ?_⟩
  rcases getOrCreate_cases version st m "Undefined" (some argsA) with
    ⟨c₁, hg₁, _, _⟩ | ⟨_, he₁⟩
  · rw [habs] at hg₁
    exact Option.noConfusion hg₁
  · have e₁ : (getOrCreate version st m "Undefined" (some argsA)).1
        = ⟨st.nextId, make_headers version "Undefined" m, argsA, false⟩ := by
      simp [he₁]
    have e₂ : (getOrCreate version st m "Undefined" (some argsA)).2
        = st.withStorage m
            (alistSet (st.storage m) "Undefined"
              ⟨st.nextId, make_headers version "Undefined" m, argsA, false⟩)
            (st.nextId + 1) := by
      simp [he₁]
    rw [e₁, e₂]
    have hget : alistGet
        ((st.withStorage m
          (alistSet (st.storage m) "Undefined"
            ⟨st.nextId, make_headers version "Undefined" m, argsA, false⟩)
          (st.nextId + 1)).storage m) "Undefined"
        = some ⟨st.nextId, make_headers version "Undefined" m, argsA,
            false⟩ := by
      rw [storage_withStorage_self]
      exact alistGet_alistSet_self _ _ _
    rcases getOrCreate_cases version
        (st.withStorage m
          (alistSet (st.storage m) "Undefined"
            ⟨st.nextId, make_headers version "Undefined" m, argsA, false⟩)
          (st.nextId + 1)) m "Undefined" (some argsB) with
      ⟨c₂, hg₂, _, he₂⟩ | ⟨hs₂, _⟩
    · rw [hget] at hg₂
      injection hg₂ with hc
      subst hc
      rw [he₂]
      exact ⟨rfl, rfl, rfl⟩
    · exfalso
      rcases hs₂ with hnone | ⟨c₀, hg₀, hcl⟩
      · rw [hget] at hnone
        exact Option.noConfusion hnone
      · rw [hget] at hg₀
        injection hg₀ with hc
        rw [← hc] at hcl
        exact Bool.noConfusion hcl

theorem C9_default_name_sharing_witness :
    alistGet ((Registry.mk [] [] 0).storage Mode.sync) "Undefined"
        = Option.none ∧
    (getOrCreate "1.0.0"
        ((getOrCreate "1.0.0" (Registry.mk [] [] 0) Mode.sync "Undefined"
            (some [("verify", PyVal.bool true)])).2) Mode.sync "Undefined"
        (some [("verify", PyVal.bool false)])).1
      = (getOrCreate "1.0.0" (Registry.mk [] [] 0) Mode.sync "Undefined"
          (some [("verify", PyVal.bool true)])).1 ∧
    (getOrCreate "1.0.0" (Registry.mk [] [] 0) Mode.sync "Undefined"
        (some [("verify", PyVal.bool true)])).1.args
      = [("verify", PyVal.bool true)] :=
  have habs : alistGet ((Registry.mk [] [] 0).storage Mode.sync) "Undefined"
      = Option.none := rfl
  ⟨habs,
    (C9_default_name_sharing "1.0.0" (Registry.mk [] [] 0) Mode.sync
      Option.none Option.none Option.none Option.none
      [("verify", PyVal.bool true)] [("verify", PyVal.bool false)]
      habs).2.1,
    (C9_default_name_sharing "1.0.0" (Registry.mk [] [] 0) Mode.sync
      Option.none Option.none Option.none Option.none
      [("verify", PyVal.bool true)] [("verify", PyVal.bool false)]
      habs).2.2.1⟩

/-- C10: a lookup for service name s in mode m changes at most the cache
entry under s in m's cache — every entry under a different name and the
entire cache of the other mode are unchanged — and the registry left by a
`send` / `send_async` call is exactly the registry left by the corresponding
lookup. -/
theorem C10_lookup_frame (version : String) (st : Registry) (m : Mode)
    (name : String) (args : Option Dict) (bu : Option String)
    (method url : String) (p : Option HttpxRequestParameters) (ub : Bool)
    (argsd : Dict) :
    (∀ k, k ≠ name →
        alistGet (((getOrCreate version st m name args).2).storage m) k
          = alistGet (st.storage m) k) ∧
    ((getOrCreate version st m name args).2).storage m.other
        = st.storage m.other ∧
    (Sender.send version st ⟨name, bu, argsd⟩ method url p ub).2
        = (getOrCreate version st Mode.sync name (some argsd)).2 ∧
    (Sender.send_async version st ⟨name, bu, argsd⟩ method url p ub).2
        = (getOrCreate version st Mode.async name (some argsd)).2 := by
  rcases getOrCreate_cases version st m name args with
    ⟨c, _, _, he⟩ | ⟨_, he⟩
  · have e₂ : (getOrCreate version st m name args).2 = st := by rw [he]
    rw [e₂]
    exact ⟨fun _ _ => rfl, rfl, rfl, rfl⟩
  · have e₂ : (getOrCreate version st m name args).2
        = st.withStorage m
            (alistSet (st.storage m) name
              ⟨st.nextId, make_headers version name m, args.getD [], false⟩)
            (st.nextId + 1) := by
      rw [he]
    rw [e₂]
    refine ⟨?_, storage_withStorage_other st m _ _, rfl, rfl⟩
    intro k hk
    rw [storage_withStorage_self]
    exact alistGet_alistSet_ne _ _ _ _ hk

theorem C10_lookup_frame_witness :
    ("b" : String) ≠ "a" ∧
    alistGet (((getOrCreate "1.0.0" (Registry.mk [] [] 0) Mode.sync "a"
          Option.none).2).storage Mode.sync) "b"
      = alistGet ((Registry.mk [] [] 0).storage Mode.sync) "b" ∧
    ((getOrCreate "1.0.0" (Registry.mk [] [] 0) Mode.sync "a"
        Option.none).2).storage (Mode.other Mode.sync)
      = (Registry.mk [] [] 0).storage (Mode.other Mode.sync) :=
  ⟨by decide,
    (C10_lookup_frame "1.0.0" (Registry.mk [] [] 0) Mode.sync "a" Option.none
      Option.none "GET" "/w" Option.none true []).1 "b" (by decide),
    (C10_lookup_frame "1.0.0" (Registry.mk [] [] 0) Mode.sync "a" Option.none
      Option.none "GET" "/w" Option.none true []).2.1⟩

end RequestSender
